import Mathlib

/-!
Verification development for the `ce-la-react` prop-classification and
synchronization engine (`src/ce-la-react.ts`).

The definitions below are a shallow embedding of the module:

* JavaScript runtime values that can appear in a React prop bag are modelled
  by `JSValue` (functions and non-null objects are tracked by an abstract
  identity number, which is all the source code ever inspects about them:
  `typeof v`, `v !== null`, and reference identity for event listeners).
* JavaScript plain objects and `Map`s used by the module (`reactProps`,
  `attrs`, `elementProps`, `eventProps`, `prevElemPropsRef.current`) are
  modelled as association lists with JavaScript object-assignment semantics:
  assigning an existing key updates it in place, a new key is appended
  (`setKV`), and `Map.prototype.delete` removes the key (`removeKV`).
* The static configuration accepted by `createComponent` is `Config`;
  `k in elementClass.prototype` and `k in globalThis.HTMLElement.prototype`
  are modelled by membership in the name lists `protoProps` / `htmlProto`
  (off browser `globalThis.HTMLElement?.prototype ?? \x7b\x7d` has no keys, which a
  caller expresses by an empty `htmlProto`).
* The per-render prop loop (source lines 204-245) is `processEntry` /
  `classifyProps`; the post-commit property sync effect (lines 274-291)
  together with `setProperty` (lines 339-353) is `syncProperties`; the
  event-listener effects (lines 252-270) are `resolveEventName`,
  `effectSetup`, `effectCleanup`, `rerenderEventEffect`,
  `unmountEventEffect`, where the React `useLayoutEffect` contract
  (cleanup of the previous effect runs before the next setup when a
  dependency changed, and on unmount) is made explicit; the server-side
  template injection (lines 296-312) is part of `renderComponent`.
-/

namespace CeLaReact

/-- A JavaScript runtime value as far as the module can distinguish them. -/
inductive JSValue where
  | vBool : Bool → JSValue
  | vNumber : Int → JSValue
  | vString : String → JSValue
  | vNull : JSValue
  | vUndefined : JSValue
  | vFunction : Nat → JSValue
  | vObject : Nat → JSValue
deriving DecidableEq

/-- JavaScript loose equality with null, `v == null`: true exactly for
`null` and `undefined`. -/
def isNullish : JSValue → Bool
  | JSValue.vNull => true
  | JSValue.vUndefined => true
  | _ => false

/-- Models `typeof v === 'function'`. -/
def isFunction : JSValue → Bool
  | JSValue.vFunction _ => true
  | _ => false

/-- Models `String(v)` for the values the module stringifies (only reached
after the `attrValue != null` guard, so the null/undefined rows are inert;
the function row approximates JavaScript source-text printing, which no
theorem below depends on). -/
def jsToString : JSValue → String
  | JSValue.vString s => s
  | JSValue.vNumber n => toString n
  | JSValue.vBool b => if b then ("true") else ("false")
  | JSValue.vNull => ("null")
  | JSValue.vUndefined => ("undefined")
  | JSValue.vFunction _ => ("function")
  | JSValue.vObject _ => ("[object Object]")

/-- Helper for the string tests below: does the first character list lead
the second one? -/
def charsBegin : List Char → List Char → Bool
  | [], _ => true
  | _ :: _, [] => false
  | p :: ps, s :: ss => p == s && charsBegin ps ss

/-- Models `s.startsWith(p)` of JavaScript. -/
def strStartsWith (s p : String) : Bool :=
  charsBegin p.data s.data

/-- Models `s.endsWith(p)` of JavaScript. -/
def strEndsWith (s p : String) : Bool :=
  charsBegin p.data.reverse s.data.reverse

/-- Models `s.toLowerCase()` of JavaScript (accurate on the ASCII range,
which is all the attribute and event names at issue use). -/
def strLower (s : String) : String :=
  String.mk (s.data.map Char.toLower)

/-- Models `s.slice(n)` of JavaScript for a nonnegative start index. -/
def strDrop (s : String) (n : Nat) : String :=
  String.mk (s.data.drop n)

/-- Models `s.slice(0, -n)` of JavaScript: drop the final `n` characters,
empty when the string is no longer than `n`. -/
def strDropRight (s : String) (n : Nat) : String :=
  String.mk (s.data.take (s.data.length - n))

/-- Object/Map assignment `o[k] = v`: update an existing key in place,
append a fresh key. -/
def setKV {α : Type} : List (String × α) → String → α → List (String × α)
  | [], k, v => [(k, v)]
  | (k0, v0) :: rest, k, v =>
    if k0 = k then (k, v) :: rest else (k0, v0) :: setKV rest k v

/-- Object/Map read `o[k]`, `none` when the key is absent. -/
def lookupKV {α : Type} : List (String × α) → String → Option α
  | [], _ => none
  | (k0, v0) :: rest, k => if k0 = k then some v0 else lookupKV rest k

/-- Map deletion / attribute removal: drop every entry with the key. -/
def removeKV {α : Type} : List (String × α) → String → List (String × α)
  | [], _ => []
  | (k0, v0) :: rest, k =>
    if k0 = k then removeKV rest k else (k0, v0) :: removeKV rest k

/-- The key list of an association list. -/
def keysOf {α : Type} (l : List (String × α)) : List String :=
  l.map Prod.fst

/-- The fixed set `reservedReactProps` (source lines 104-112). -/
def reservedReactProps : List String :=
  [("style"), ("children"), ("ref"), ("key"),
   ("suppressContentEditableWarning"), ("suppressHydrationWarning"),
   ("dangerouslySetInnerHTML")]

/-- The two hard-coded renames `reactPropToAttrNameMap` (lines 114-117). -/
def reactPropToAttrNameMap (k : String) : Option String :=
  if k = "className" then some ("class")
  else if k = "htmlFor" then some ("for")
  else none

/-- Default attribute-name policy `defaultToAttributeName` (lines 119-121):
lowercase the prop name. -/
def defaultToAttributeName (propName : String) : String :=
  strLower propName

/-- Default attribute-value policy `defaultToAttributeValue` (lines 123-128). -/
def defaultToAttributeValue : JSValue → JSValue
  | JSValue.vBool b => if b then JSValue.vString ("") else JSValue.vUndefined
  | JSValue.vFunction _ => JSValue.vUndefined
  | JSValue.vObject _ => JSValue.vUndefined
  | v => v

/-- The `shadowRootOptions` static of the element class (both fields are
optional in the TypeScript type). -/
structure ShadowRootOpts where
  mode : Option String
  delegatesFocus : Option Bool
deriving DecidableEq

/-- The element class as the module observes it: which names answer `true`
to `k in elementClass.prototype`, the optional `observedAttributes` static,
the optional `getTemplateHTML` static and the optional `shadowRootOptions`
static. -/
structure ElementClass where
  protoProps : List String
  observedAttributes : Option (List String)
  getTemplateHTML : Option (List (String × String) → List (String × JSValue) → String)
  shadowRootOptions : Option ShadowRootOpts

/-- The static configuration of `createComponent` plus the two ambient
facts the module reads from the environment: `Number.parseInt(React.version)
>= 19` and `typeof window !== 'undefined'`.  `htmlProto` is the key set of
`globalThis.HTMLElement?.prototype ?? \x7b\x7d`. -/
structure Config where
  isReact19 : Bool
  tagName : String
  elementClass : ElementClass
  events : List (String × String)
  toAttributeName : String → String
  toAttributeValue : JSValue → JSValue
  htmlProto : List String
  hasWindow : Bool

/-- Models `elementClass.observedAttributes?.some((attr) => attr === attrName)`
(an absent list is falsy). -/
def observedHas (cfg : Config) (attrName : String) : Bool :=
  match cfg.elementClass.observedAttributes with
  | none => false
  | some l => l.any (fun a => a == attrName)

/-- The resolved attribute name of a prop
(`toAttributeName(reactPropToAttrNameMap[k] ?? k)`, line 210). -/
def resolveAttrName (cfg : Config) (k : String) : String :=
  cfg.toAttributeName ((reactPropToAttrNameMap k).getD k)

/-- The guard of the element-property branch (lines 216-220): the original
prop name is on the element prototype, is not on the `HTMLElement` base
prototype, and its resolved attribute name is not observed. -/
def isPropertyProp (cfg : Config) (k : String) : Bool :=
  decide (k ∈ cfg.elementClass.protoProps)
    && !(decide (k ∈ cfg.htmlProto))
    && !(observedHas cfg (resolveAttrName cfg k))

/-- The four destinations a prop-bag entry can be routed to. -/
inductive Dest where
  | reserved
  | property
  | event
  | attr
deriving DecidableEq

/-- The classification decision for one prop name, read off the
`if/continue` chain of the render loop (lines 204-229): first match wins. -/
def classify (cfg : Config) (k : String) : Dest :=
  if k ∈ reservedReactProps then Dest.reserved
  else if isPropertyProp cfg k then Dest.property
  else if strStartsWith k ("on") then Dest.event
  else Dest.attr

/-- The four collections the render loop fills (lines 196-202). -/
structure RenderBuckets where
  eventProps : List (String × JSValue)
  attrs : List (String × String)
  reactProps : List (String × JSValue)
  elementProps : List (String × JSValue)
deriving DecidableEq

/-- The initial empty collections. -/
def emptyBuckets : RenderBuckets :=
  { eventProps := [], attrs := [], reactProps := [], elementProps := [] }

/-- One iteration of the render loop (lines 204-245) on the entry `(k, v)`. -/
def processEntry (cfg : Config) (b : RenderBuckets) (k : String) (v : JSValue) :
    RenderBuckets :=
  match classify cfg k with
  | Dest.reserved => { b with reactProps := setKV b.reactProps k v }
  | Dest.property => { b with elementProps := setKV b.elementProps k v }
  | Dest.event => { b with eventProps := setKV b.eventProps k v }
  | Dest.attr =>
    let attrName := resolveAttrName cfg k
    let attrValue := cfg.toAttributeValue v
    let b1 :=
      if attrName ≠ "" ∧ isNullish attrValue = false then
        { b with
            attrs := setKV b.attrs attrName (jsToString attrValue),
            reactProps :=
              if cfg.isReact19 then b.reactProps
              else setKV b.reactProps attrName attrValue }
      else b
    if attrName ≠ "" ∧ cfg.isReact19 = true then
      { b1 with reactProps := setKV b1.reactProps attrName v }
    else b1

/-- The whole render loop over a prop bag, in entry order. -/
def classifyProps (cfg : Config) (props : List (String × JSValue)) : RenderBuckets :=
  props.foldl (fun b kv => processEntry cfg b kv.1 kv.2) emptyBuckets

/-- The live custom-element instance as the sync code touches it: its
directly assigned fields and its DOM attributes. -/
structure Element where
  props : List (String × JSValue)
  attrs : List (String × String)
deriving DecidableEq

/-- The free function `setProperty` (source lines 339-353): assign the
field, and when the value is nullish and the name is a property of the
generic `HTMLElement` base prototype, also remove the same-named
attribute.  `hp` is the key set of `globalThis.HTMLElement?.prototype`. -/
def setProperty (hp : List String) (node : Element) (name : String) (value : JSValue) :
    Element :=
  let node1 : Element := { node with props := setKV node.props name value }
  if isNullish value = true ∧ name ∈ hp then
    { node1 with attrs := removeKV node1.attrs name }
  else node1

/-- One iteration of the first sync loop (lines 278-282): set the property
on the element and delete the key from the previous-render map. -/
def syncStep (hp : List String) (acc : Element × List (String × JSValue))
    (kv : String × JSValue) : Element × List (String × JSValue) :=
  (setProperty hp acc.1 kv.1 kv.2, removeKV acc.2 kv.1)

/-- The second sync loop (lines 287-289): assign `undefined` to every key
left over from the previous render. -/
def unsetProps (hp : List String) (node : Element) (l : List (String × JSValue)) :
    Element :=
  l.foldl (fun n kv => setProperty hp n kv.1 JSValue.vUndefined) node

/-- The whole property-sync layout effect (lines 274-291): run the first
loop over the current element-property set, unset the leftover previous
keys, and store the current set as the new previous baseline. -/
def syncProperties (hp : List String) (node : Element)
    (prev cur : List (String × JSValue)) : Element × List (String × JSValue) :=
  let r := cur.foldl (syncStep hp) (node, prev)
  (unsetProps hp r.1 r.2, cur)

/-- Event-name resolution for one handler prop (lines 254-258):
`(events?.[propName] ?? propName.slice(2).toLowerCase()).slice(0,
useCapture ? -7 : undefined)` together with the capture flag
`propName.endsWith('Capture')`. -/
def resolveEventName (events : List (String × String)) (propName : String) :
    String × Bool :=
  let useCapture := strEndsWith propName ("Capture")
  let resolved := (lookupKV events propName).getD (strLower (strDrop propName 2))
  (if useCapture then strDropRight resolved 7 else resolved, useCapture)

/-- One listener registration on the DOM: target identity, event name,
capture flag and handler identity — the quadruple
`addEventListener`/`removeEventListener` key on. -/
structure ListenerReg where
  target : Nat
  eventName : String
  capture : Bool
  callback : Nat
deriving DecidableEq

/-- `EventTarget.addEventListener`: idempotent for an identical
(name, handler, capture) triple on the same target. -/
def addListener (ls : List ListenerReg) (r : ListenerReg) : List ListenerReg :=
  if r ∈ ls then ls else ls ++ [r]

/-- `EventTarget.removeEventListener` for one registration. -/
def removeListener (ls : List ListenerReg) (r : ListenerReg) : List ListenerReg :=
  ls.filter (fun x => decide (x ≠ r))

/-- The body of the per-event layout effect (lines 260-264): with no live
target or a non-function callback it returns without subscribing,
otherwise it attaches one listener and remembers it for cleanup.  Returns
the registration held by this effect instance and the updated DOM listener
set. -/
def effectSetup (target : Option Nat) (callback : JSValue) (eventName : String)
    (useCapture : Bool) (ls : List ListenerReg) : Option ListenerReg × List ListenerReg :=
  match target with
  | none => (none, ls)
  | some t =>
    match callback with
    | JSValue.vFunction fid =>
      let r : ListenerReg :=
        { target := t, eventName := eventName, capture := useCapture, callback := fid }
      (some r, addListener ls r)
    | _ => (none, ls)

/-- The cleanup returned by the effect (lines 266-268): detach the
registration made by the previous run, if any. -/
def effectCleanup (st : Option ListenerReg) (ls : List ListenerReg) :
    List ListenerReg :=
  match st with
  | some r => removeListener ls r
  | none => ls

/-- React's layout-effect contract for the event effect with dependency
array `[elementRef.current, callback]` (line 269): when a dependency
changed, the previous cleanup runs and then the new setup. -/
def rerenderEventEffect (st : Option ListenerReg) (ls : List ListenerReg)
    (target : Option Nat) (callback : JSValue) (eventName : String)
    (useCapture : Bool) : Option ListenerReg × List ListenerReg :=
  effectSetup target callback eventName useCapture (effectCleanup st ls)

/-- React's layout-effect contract on unmount: only the last cleanup runs. -/
def unmountEventEffect (st : Option ListenerReg) (ls : List ListenerReg) :
    List ListenerReg :=
  effectCleanup st ls

/-- The declarative-shadow-root `template` element built on the server
(lines 303-309): its `shadowrootmode` and `shadowrootdelegatesfocus`
attributes and its `dangerouslySetInnerHTML.__html` markup. -/
structure TemplateNode where
  shadowrootmode : Option String
  shadowrootdelegatesfocus : Option Bool
  innerHTML : String
deriving DecidableEq

/-- The children of the rendered node: either the original
`reactProps.children` value untouched, or — after the server-side branch
fired — the two-element array `[templateShadowRoot, originalChildren]`
with the template first (line 311). -/
inductive RenderedChildren where
  | original : JSValue → RenderedChildren
  | templateFirst : TemplateNode → JSValue → RenderedChildren
deriving DecidableEq

/-- What one render of the wrapped component produces, as far as the
claims are concerned: the four classification collections, the children of
the created node, and whether the client-only layout effects (property
sync and event listeners) were registered at all — the code guards both
behind `typeof window !== 'undefined'` (line 248). -/
structure RenderResult where
  buckets : RenderBuckets
  children : RenderedChildren
  clientEffectsEnabled : Bool

/-- One render of the component returned by `createComponent`
(lines 191-327): classify the prop bag, and on the server — when the
element class exposes both `getTemplateHTML` and `shadowRootOptions` —
prepend the template child built from the attribute set and the original
prop bag (lines 296-312). -/
def renderComponent (cfg : Config) (props : List (String × JSValue)) : RenderResult :=
  let b := classifyProps cfg props
  let origChildren := (lookupKV b.reactProps ("children")).getD JSValue.vUndefined
  let children :=
    if cfg.hasWindow = false then
      match cfg.elementClass.getTemplateHTML, cfg.elementClass.shadowRootOptions with
      | some f, some sro =>
        RenderedChildren.templateFirst
          { shadowrootmode := sro.mode,
            shadowrootdelegatesfocus := sro.delegatesFocus,
            innerHTML := f b.attrs props }
          origChildren
      | some _, none => RenderedChildren.original origChildren
      | none, _ => RenderedChildren.original origChildren
    else RenderedChildren.original origChildren
  { buckets := b, children := children, clientEffectsEnabled := cfg.hasWindow }

/-- A configuration mirroring the test element `MyProfile` of
`test/ce-la-react.tsx` under React 18 in a browser: prototype accessors
`firstName`, `age`, `human`, `metadata`; observed attributes `firstname`,
`age`, `human`; default naming and value policies. -/
def cfgProfile : Config :=
  { isReact19 := false
    tagName := "my-profile"
    elementClass :=
      { protoProps := [("firstName"), ("age"), ("human"), ("metadata")]
        observedAttributes := some [("firstname"), ("age"), ("human")]
        getTemplateHTML := none
        shadowRootOptions := none }
    events := [(("onFirstName"), ("firstname"))]
    toAttributeName := defaultToAttributeName
    toAttributeValue := defaultToAttributeValue
    htmlProto := [("id"), ("draggable"), ("style"), ("className"), ("children")]
    hasWindow := true }

/-- A configuration whose element class exposes prototype properties named
`class`, `style` and `onFoo` and observes the attribute `onfoo`, used to
evaluate the classifier at its precedence corners. -/
def cfgCorner : Config :=
  { isReact19 := false
    tagName := "x-corner"
    elementClass :=
      { protoProps := [("class"), ("style"), ("onFoo")]
        observedAttributes := some [("onfoo")]
        getTemplateHTML := none
        shadowRootOptions := none }
    events := []
    toAttributeName := defaultToAttributeName
    toAttributeValue := defaultToAttributeValue
    htmlProto := []
    hasWindow := true }

/-- The corner configuration as seen under React 19. -/
def cfgCornerReact19 : Config :=
  { cfgCorner with isReact19 := true }

/-- A configuration whose attribute-name policy returns the empty string
for every prop name. -/
def cfgEmptyAttrName : Config :=
  { cfgCorner with toAttributeName := fun _ => "" }

/-- A server-side configuration: no `window`, and an element class that
exposes both `getTemplateHTML` and `shadowRootOptions`. -/
def cfgServer : Config :=
  { isReact19 := true
    tagName := "my-profile"
    elementClass :=
      { protoProps := [("firstName"), ("age"), ("human"), ("metadata")]
        observedAttributes := some [("firstname"), ("age"), ("human")]
        getTemplateHTML :=
          some (fun attrs _ =>
            ("<h1>Hello, ") ++ (lookupKV attrs ("firstname")).getD ("") ++ ("!</h1>"))
        shadowRootOptions := some { mode := some ("open"), delegatesFocus := none } }
    events := [(("onFirstName"), ("firstname"))]
    toAttributeName := defaultToAttributeName
    toAttributeValue := defaultToAttributeValue
    htmlProto := []
    hasWindow := false }

/-- A concrete listener registration from a first render. -/
def regOld : ListenerReg :=
  { target := 1, eventName := ("firstname"), capture := false, callback := 10 }

/-- The registration for the same event after the handler identity changed. -/
def regNew : ListenerReg :=
  { target := 1, eventName := ("firstname"), capture := false, callback := 20 }

/-- Concrete inputs used to instantiate the synchronization theorems:
the base-prototype names that reflect attributes. -/
def hpW : List String :=
  [("id"), ("draggable")]

/-- A live element carrying an `id` attribute from a previous render. -/
def nodeW : Element :=
  { props := [], attrs := [(("id"), ("x"))] }

/-- A previous-render element-property set containing `id` and `metadata`. -/
def prevW : List (String × JSValue) :=
  [(("id"), JSValue.vString ("x")), (("metadata"), JSValue.vObject 7)]

/-- A current-render element-property set that dropped `id`. -/
def curW : List (String × JSValue) :=
  [(("metadata"), JSValue.vObject 8), (("age"), JSValue.vNumber 38)]

/-- Reading back an assigned key, and transparency on other keys. -/
theorem lookupKV_setKV {α : Type} (l : List (String × α)) (k q : String) (v : α) :
    lookupKV (setKV l k v) q = if q = k then some v else lookupKV l q := by
  induction l with
  | nil =>
    by_cases h : q = k <;> by_cases h2 : k = q <;> simp_all [setKV, lookupKV]
  | cons hd tl ih =>
    obtain ⟨k0, v0⟩ := hd
    simp only [setKV]
    by_cases h0 : k0 = k <;> by_cases h1 : k0 = q <;> by_cases h2 : q = k <;>
      simp_all [lookupKV]

/-- Deleting a key removes it and touches nothing else. -/
theorem lookupKV_removeKV {α : Type} (l : List (String × α)) (k q : String) :
    lookupKV (removeKV l k) q = if q = k then none else lookupKV l q := by
  induction l with
  | nil => simp [removeKV, lookupKV]
  | cons hd tl ih =>
    obtain ⟨k0, v0⟩ := hd
    simp only [removeKV]
    by_cases h0 : k0 = k <;> by_cases h1 : k0 = q <;> by_cases h2 : q = k <;>
      simp_all [lookupKV]

/-- Key membership means some entry carries the key. -/
theorem mem_keysOf_iff {α : Type} (l : List (String × α)) (q : String) :
    q ∈ keysOf l ↔ ∃ v, (q, v) ∈ l := by
  constructor
  · intro h
    obtain ⟨⟨a, b⟩, hab, rfl⟩ := List.mem_map.mp h
    exact ⟨b, hab⟩
  · rintro ⟨v, hv⟩
    exact List.mem_map.mpr ⟨(q, v), hv, rfl⟩

/-- A lookup succeeds exactly on the keys of the map. -/
theorem lookupKV_ne_none_iff {α : Type} (l : List (String × α)) (q : String) :
    lookupKV l q ≠ none ↔ q ∈ keysOf l := by
  induction l with
  | nil => simp [lookupKV, keysOf]
  | cons hd tl ih =>
    obtain ⟨k0, v0⟩ := hd
    by_cases h : k0 = q
    · subst h; simp [lookupKV, keysOf]
    · simp [lookupKV, keysOf, h, Ne.symm h, ih]

/-- Key membership after a deletion. -/
theorem mem_keysOf_removeKV {α : Type} (l : List (String × α)) (k q : String) :
    q ∈ keysOf (removeKV l k) ↔ q ∈ keysOf l ∧ q ≠ k := by
  rw [← lookupKV_ne_none_iff, ← lookupKV_ne_none_iff (l := l), lookupKV_removeKV]
  by_cases h : q = k <;> simp [h]

/-- In a map whose keys are distinct, an entry is recovered by lookup. -/
theorem lookupKV_of_mem_nodup {α : Type} {l : List (String × α)} {k : String}
    {v : α} (hmem : (k, v) ∈ l) (hnd : (keysOf l).Nodup) : lookupKV l k = some v := by
  induction l with
  | nil => cases hmem
  | cons hd tl ih =>
    obtain ⟨k0, v0⟩ := hd
    have hnd2 : k0 ∉ keysOf tl ∧ (keysOf tl).Nodup := by
      simpa [keysOf] using hnd
    rcases List.mem_cons.mp hmem with h | h
    · cases h
      simp [lookupKV]
    · have hk : k ∈ keysOf tl := (mem_keysOf_iff tl k).mpr ⟨v, h⟩
      have hne : k0 ≠ k := fun he => hnd2.1 (by rw [he]; exact hk)
      simp only [lookupKV, if_neg hne]
      exact ih h hnd2.2

/-- The element fields after a `setProperty` call. -/
theorem setProperty_props (hp : List String) (node : Element) (name : String)
    (value : JSValue) :
    (setProperty hp node name value).props = setKV node.props name value := by
  unfold setProperty
  split_ifs <;> rfl

/-- The element attributes after a `setProperty` call. -/
theorem setProperty_attrs (hp : List String) (node : Element) (name : String)
    (value : JSValue) :
    (setProperty hp node name value).attrs =
      if isNullish value = true ∧ name ∈ hp then removeKV node.attrs name
      else node.attrs := by
  unfold setProperty
  split_ifs <;> rfl

/-- A direct property assignment as seen on the element fields. -/
theorem setProperty_props_lookup (hp : List String) (node : Element) (name : String)
    (value : JSValue) (q : String) :
    lookupKV (setProperty hp node name value).props q =
      if q = name then some value else lookupKV node.props q := by
  rw [setProperty_props]
  exact lookupKV_setKV node.props name q value

/-- A property assignment never changes attributes with a different name. -/
theorem setProperty_attrs_other (hp : List String) (node : Element) (name : String)
    (value : JSValue) (q : String) (h : q ≠ name) :
    lookupKV (setProperty hp node name value).attrs q = lookupKV node.attrs q := by
  rw [setProperty_attrs]
  split_ifs with hc
  · rw [lookupKV_removeKV, if_neg h]
  · rfl

/-- Assigning `undefined` to a base-prototype name removes the attribute. -/
theorem setProperty_attrs_nullish_mem (hp : List String) (node : Element)
    (name : String) (hmem : name ∈ hp) :
    lookupKV (setProperty hp node name JSValue.vUndefined).attrs name = none := by
  rw [setProperty_attrs, if_pos ⟨rfl, hmem⟩, lookupKV_removeKV, if_pos rfl]

/-- The previous-render map after the first sync loop is the previous map
with every current key deleted. -/
theorem syncFold_snd (hp : List String) (cur : List (String × JSValue)) :
    ∀ (node : Element) (prev : List (String × JSValue)),
      (cur.foldl (syncStep hp) (node, prev)).2 =
        cur.foldl (fun p kv => removeKV p kv.1) prev := by
  induction cur with
  | nil => intro node prev; rfl
  | cons hd tl ih =>
    intro node prev
    simp only [List.foldl_cons]
    exact ih _ _

/-- Lookup in the previous map after all current keys are deleted. -/
theorem removeFold_lookup (cur : List (String × JSValue)) :
    ∀ (prev : List (String × JSValue)) (q : String),
      lookupKV (cur.foldl (fun p kv => removeKV p kv.1) prev) q =
        if q ∈ keysOf cur then none else lookupKV prev q := by
  induction cur with
  | nil => intro prev q; simp [keysOf]
  | cons hd tl ih =>
    intro prev q
    simp only [List.foldl_cons]
    rw [ih]
    simp only [keysOf, List.map_cons, List.mem_cons]
    by_cases h1 : q ∈ List.map Prod.fst tl
    · simp [h1]
    · by_cases h2 : q = hd.1
      · simp [h1, h2, lookupKV_removeKV]
      · simp [h1, h2, lookupKV_removeKV]

/-- Key membership in the previous map after all current keys are deleted. -/
theorem removeFold_mem (cur prev : List (String × JSValue)) (q : String) :
    q ∈ keysOf (cur.foldl (fun p kv => removeKV p kv.1) prev) ↔
      q ∈ keysOf prev ∧ q ∉ keysOf cur := by
  rw [← lookupKV_ne_none_iff, removeFold_lookup]
  by_cases h : q ∈ keysOf cur
  · simp [h]
  · simp [h, lookupKV_ne_none_iff]

/-- The first sync loop leaves fields with keys outside the current set
untouched. -/
theorem syncFold_props_not_mem (hp : List String) (cur : List (String × JSValue)) :
    ∀ (node : Element) (prev : List (String × JSValue)) (q : String),
      q ∉ keysOf cur →
      lookupKV ((cur.foldl (syncStep hp) (node, prev)).1).props q =
        lookupKV node.props q := by
  induction cur with
  | nil => intro node prev q _; rfl
  | cons hd tl ih =>
    intro node prev q h
    have h2 : ¬q = hd.1 ∧ q ∉ keysOf tl := by simpa [keysOf] using h
    have e1 := ih (setProperty hp node hd.1 hd.2) (removeKV prev hd.1) q h2.2
    have e2 := setProperty_props_lookup hp node hd.1 hd.2 q
    rw [if_neg h2.1] at e2
    simp only [List.foldl_cons]
    exact e1.trans e2

/-- The first sync loop writes every entry of the current set onto the
element, provided the current keys are distinct. -/
theorem syncFold_props_mem (hp : List String) (cur : List (String × JSValue)) :
    ∀ (node : Element) (prev : List (String × JSValue)) (k : String) (v : JSValue),
      (keysOf cur).Nodup → lookupKV cur k = some v →
      lookupKV ((cur.foldl (syncStep hp) (node, prev)).1).props k = some v := by
  induction cur with
  | nil => intro _ _ _ _ _ hl; cases hl
  | cons hd tl ih =>
    intro node prev k v hnd hl
    obtain ⟨k0, v0⟩ := hd
    have hnd2 : k0 ∉ keysOf tl ∧ (keysOf tl).Nodup := by simpa [keysOf] using hnd
    by_cases h : k0 = k
    · subst h
      have hv : v0 = v := by simpa [lookupKV] using hl
      subst hv
      simp only [List.foldl_cons]
      have e1 := syncFold_props_not_mem hp tl (setProperty hp node k0 v0)
        (removeKV prev k0) k0 hnd2.1
      have e2 := setProperty_props_lookup hp node k0 v0 k0
      rw [if_pos rfl] at e2
      exact e1.trans e2
    · have hl2 : lookupKV tl k = some v := by simpa [lookupKV, h] using hl
      simp only [List.foldl_cons]
      exact ih _ _ _ _ hnd2.2 hl2

/-- The unset loop leaves fields with keys outside its list untouched. -/
theorem unsetProps_props_not_mem (hp : List String) (l : List (String × JSValue)) :
    ∀ (node : Element) (q : String), q ∉ keysOf l →
      lookupKV (unsetProps hp node l).props q = lookupKV node.props q := by
  induction l with
  | nil => intro node q _; rfl
  | cons hd tl ih =>
    intro node q h
    have h2 : ¬q = hd.1 ∧ q ∉ keysOf tl := by simpa [keysOf] using h
    have e1 := ih (setProperty hp node hd.1 JSValue.vUndefined) q h2.2
    have e2 := setProperty_props_lookup hp node hd.1 JSValue.vUndefined q
    rw [if_neg h2.1] at e2
    simp only [unsetProps, List.foldl_cons]
    exact e1.trans e2

/-- The unset loop leaves attributes with keys outside its list untouched. -/
theorem unsetProps_attrs_not_mem (hp : List String) (l : List (String × JSValue)) :
    ∀ (node : Element) (q : String), q ∉ keysOf l →
      lookupKV (unsetProps hp node l).attrs q = lookupKV node.attrs q := by
  induction l with
  | nil => intro node q _; rfl
  | cons hd tl ih =>
    intro node q h
    have h2 : ¬q = hd.1 ∧ q ∉ keysOf tl := by simpa [keysOf] using h
    have e1 := ih (setProperty hp node hd.1 JSValue.vUndefined) q h2.2
    have e2 := setProperty_attrs_other hp node hd.1 JSValue.vUndefined q h2.1
    simp only [unsetProps, List.foldl_cons]
    exact e1.trans e2

/-- The unset loop assigns `undefined` to every key of its list. -/
theorem unsetProps_props_mem (hp : List String) (l : List (String × JSValue)) :
    ∀ (node : Element) (q : String), q ∈ keysOf l →
      lookupKV (unsetProps hp node l).props q = some JSValue.vUndefined := by
  induction l with
  | nil => intro _ q h; simp [keysOf] at h
  | cons hd tl ih =>
    intro node q h
    by_cases h2 : q ∈ keysOf tl
    · simp only [unsetProps, List.foldl_cons]
      exact ih _ q h2
    · have hq : q = hd.1 := by
        rcases (by simpa [keysOf] using h : q = hd.1 ∨ q ∈ keysOf tl) with h3 | h3
        · exact h3
        · exact absurd h3 h2
      have e1 := unsetProps_props_not_mem hp tl
        (setProperty hp node hd.1 JSValue.vUndefined) q h2
      have e2 := setProperty_props_lookup hp node hd.1 JSValue.vUndefined q
      rw [if_pos hq] at e2
      simp only [unsetProps, List.foldl_cons]
      exact e1.trans e2

/-- The unset loop removes the attribute for every key of its list that is
a base-prototype name. -/
theorem unsetProps_attrs_mem (hp : List String) (l : List (String × JSValue)) :
    ∀ (node : Element) (q : String), q ∈ keysOf l → q ∈ hp →
      lookupKV (unsetProps hp node l).attrs q = none := by
  induction l with
  | nil => intro _ q h _; simp [keysOf] at h
  | cons hd tl ih =>
    intro node q h hhp
    by_cases h2 : q ∈ keysOf tl
    · simp only [unsetProps, List.foldl_cons]
      exact ih _ q h2 hhp
    · have hq : q = hd.1 := by
        rcases (by simpa [keysOf] using h : q = hd.1 ∨ q ∈ keysOf tl) with h3 | h3
        · exact h3
        · exact absurd h3 h2
      rw [hq]
      have e1 := unsetProps_attrs_not_mem hp tl
        (setProperty hp node hd.1 JSValue.vUndefined) hd.1 (hq ▸ h2)
      have e2 := setProperty_attrs_nullish_mem hp node hd.1 (hq ▸ hhp)
      simp only [unsetProps, List.foldl_cons]
      exact e1.trans e2

/-- The classifier unfolded: each destination holds exactly when its guard
holds and every earlier guard in the chain fails. -/
theorem classify_cases (cfg : Config) (k : String) :
    (classify cfg k = Dest.reserved ↔ k ∈ reservedReactProps)
    ∧ (classify cfg k = Dest.property ↔
        (k ∉ reservedReactProps ∧ isPropertyProp cfg k = true))
    ∧ (classify cfg k = Dest.event ↔
        (k ∉ reservedReactProps ∧ isPropertyProp cfg k = false
          ∧ strStartsWith k ("on") = true))
    ∧ (classify cfg k = Dest.attr ↔
        (k ∉ reservedReactProps ∧ isPropertyProp cfg k = false
          ∧ strStartsWith k ("on") = false)) := by
  unfold classify
  by_cases h1 : k ∈ reservedReactProps <;>
    by_cases h2 : isPropertyProp cfg k = true <;>
    by_cases h3 : strStartsWith k ("on") = true <;>
    simp [h1, h2, h3]

/-- Claim C1: the classification of every key of every prop bag is total —
it lands in one of the four destinations — and disjoint — it never lands in
two of them. -/
theorem classification_total_and_disjoint (cfg : Config) (k : String) :
    (classify cfg k = Dest.reserved ∨ classify cfg k = Dest.property
      ∨ classify cfg k = Dest.event ∨ classify cfg k = Dest.attr)
    ∧ ¬(classify cfg k = Dest.reserved ∧ classify cfg k = Dest.property)
    ∧ ¬(classify cfg k = Dest.reserved ∧ classify cfg k = Dest.event)
    ∧ ¬(classify cfg k = Dest.reserved ∧ classify cfg k = Dest.attr)
    ∧ ¬(classify cfg k = Dest.property ∧ classify cfg k = Dest.event)
    ∧ ¬(classify cfg k = Dest.property ∧ classify cfg k = Dest.attr)
    ∧ ¬(classify cfg k = Dest.event ∧ classify cfg k = Dest.attr) := by
  rcases h : classify cfg k <;> simp [h]

/-- Claim C3: the classifier runs once per prop-bag entry as a fold, the
four rules apply in fixed precedence order with first match winning, and a
reserved-name prop is forwarded verbatim into the creation-argument map
without touching the property, event or attribute collections. -/
theorem classification_precedence_first_match (cfg : Config) (k : String)
    (v : JSValue) (b : RenderBuckets) :
    (classify cfg k = Dest.reserved ↔ k ∈ reservedReactProps)
    ∧ (classify cfg k = Dest.property ↔
        (k ∉ reservedReactProps ∧ isPropertyProp cfg k = true))
    ∧ (classify cfg k = Dest.event ↔
        (k ∉ reservedReactProps ∧ isPropertyProp cfg k = false
          ∧ strStartsWith k ("on") = true))
    ∧ (classify cfg k = Dest.attr ↔
        (k ∉ reservedReactProps ∧ isPropertyProp cfg k = false
          ∧ strStartsWith k ("on") = false))
    ∧ (k ∈ reservedReactProps →
        processEntry cfg b k v = { b with reactProps := setKV b.reactProps k v })
    ∧ (∀ props, classifyProps cfg props =
        props.foldl (fun acc kv => processEntry cfg acc kv.1 kv.2) emptyBuckets) := by
  obtain ⟨c1, c2, c3, c4⟩ := classify_cases cfg k
  refine ⟨c1, c2, c3, c4, fun h => ?_, fun _ => rfl⟩
  simp [processEntry, c1.mpr h]

/-- Witness for C3 at a concrete reserved prop. -/
theorem classification_precedence_first_match_witness :
    ("style") ∈ reservedReactProps
    ∧ processEntry cfgCorner emptyBuckets ("style") (JSValue.vNumber 1) =
        { emptyBuckets with
            reactProps := setKV emptyBuckets.reactProps ("style") (JSValue.vNumber 1) } :=
  ⟨by decide,
    (classification_precedence_first_match cfgCorner ("style") (JSValue.vNumber 1)
      emptyBuckets).2.2.2.2.1 (by decide)⟩

/-- Claim C6: the default attribute-value conversion sends `true` to the
empty string, `false` to absence, functions and non-null objects to
absence, and passes everything else (including `null`) through; at the
usage site a nullish converted value contributes no attribute. -/
theorem defaultToAttributeValue_spec :
    defaultToAttributeValue (JSValue.vBool true) = JSValue.vString ("")
    ∧ defaultToAttributeValue (JSValue.vBool false) = JSValue.vUndefined
    ∧ (∀ i, defaultToAttributeValue (JSValue.vFunction i) = JSValue.vUndefined)
    ∧ (∀ i, defaultToAttributeValue (JSValue.vObject i) = JSValue.vUndefined)
    ∧ defaultToAttributeValue JSValue.vNull = JSValue.vNull
    ∧ defaultToAttributeValue JSValue.vUndefined = JSValue.vUndefined
    ∧ (∀ s, defaultToAttributeValue (JSValue.vString s) = JSValue.vString s)
    ∧ (∀ n, defaultToAttributeValue (JSValue.vNumber n) = JSValue.vNumber n)
    ∧ (∀ (cfg : Config) (b : RenderBuckets) (k : String) (v : JSValue),
        classify cfg k = Dest.attr → isNullish (cfg.toAttributeValue v) = true →
        (processEntry cfg b k v).attrs = b.attrs) := by
  refine ⟨rfl, rfl, fun i => rfl, fun i => rfl, rfl, rfl, fun s => rfl, fun n => rfl, ?_⟩
  intro cfg b k v hcl hnull
  simp only [processEntry, hcl, hnull]
  simp only [Bool.true_eq_false, and_false, if_false]
  split_ifs <;> rfl

/-- Witness for C6 at a concrete nullish conversion. -/
theorem defaultToAttributeValue_spec_witness :
    classify cfgCorner ("data") = Dest.attr
    ∧ isNullish (cfgCorner.toAttributeValue JSValue.vNull) = true
    ∧ (processEntry cfgCorner emptyBuckets ("data") JSValue.vNull).attrs =
        emptyBuckets.attrs :=
  ⟨by decide, by decide,
    defaultToAttributeValue_spec.2.2.2.2.2.2.2.2 cfgCorner emptyBuckets ("data")
      JSValue.vNull (by decide) (by decide)⟩

/-- Counterexample to claim C2 as stated.  First: the code tests the
original prop name against the element prototype, not the renamed one —
for `className` with a prototype property named `class` the claimed
characterization holds yet the prop is not routed to element-property.
Second: a reserved name such as `style` satisfies the characterization yet
is routed to the reserved destination.  Third: a prop whose resolved
attribute name is observed is routed to the event destination, not the
attribute destination, when its name starts with `on`. -/
theorem property_destination_claim_counterexample :
    ((reactPropToAttrNameMap ("className")).getD ("className") ∈
        cfgCorner.elementClass.protoProps
      ∧ (reactPropToAttrNameMap ("className")).getD ("className") ∉ cfgCorner.htmlProto
      ∧ observedHas cfgCorner (resolveAttrName cfgCorner ("className")) = false
      ∧ classify cfgCorner ("className") ≠ Dest.property)
    ∧ ((reactPropToAttrNameMap ("style")).getD ("style") ∈
        cfgCorner.elementClass.protoProps
      ∧ (reactPropToAttrNameMap ("style")).getD ("style") ∉ cfgCorner.htmlProto
      ∧ observedHas cfgCorner (resolveAttrName cfgCorner ("style")) = false
      ∧ classify cfgCorner ("style") ≠ Dest.property)
    ∧ (observedHas cfgCorner (resolveAttrName cfgCorner ("onFoo")) = true
      ∧ ("onFoo") ∈ cfgCorner.elementClass.protoProps
      ∧ classify cfgCorner ("onFoo") ≠ Dest.attr) := by
  decide

/-- Claim C2 amended: for a non-reserved prop name, element-property
routing holds iff the original (un-renamed) name is on the element
prototype, not on the `HTMLElement` base prototype, and its resolved
attribute name is not observed; a non-reserved prop whose resolved
attribute name is observed is never element-property and — unless its name
starts with `on` — goes to the attribute destination. -/
theorem property_destination_characterization (cfg : Config) (k : String)
    (hk : k ∉ reservedReactProps) :
    (classify cfg k = Dest.property ↔
      (k ∈ cfg.elementClass.protoProps ∧ k ∉ cfg.htmlProto
        ∧ observedHas cfg (resolveAttrName cfg k) = false))
    ∧ (observedHas cfg (resolveAttrName cfg k) = true →
        classify cfg k ≠ Dest.property)
    ∧ (observedHas cfg (resolveAttrName cfg k) = true →
        strStartsWith k ("on") = false → classify cfg k = Dest.attr) := by
  obtain ⟨c1, c2, c3, c4⟩ := classify_cases cfg k
  refine ⟨?_, ?_, ?_⟩
  · rw [c2]
    unfold isPropertyProp
    simp [hk, Bool.and_eq_true, Bool.not_eq_true', decide_eq_true_eq,
      decide_eq_false_iff_not, and_assoc]
  · intro hobs hcl
    have h2 := c2.mp hcl
    unfold isPropertyProp at h2
    simp [hobs] at h2
  · intro hobs hon
    rw [c4]
    refine ⟨hk, ?_, hon⟩
    unfold isPropertyProp
    simp [hobs]

/-- Witness for the amended C2 at a concrete rich-typed property prop. -/
theorem property_destination_characterization_witness :
    ("metadata") ∉ reservedReactProps
    ∧ classify cfgProfile ("metadata") = Dest.property :=
  ⟨by decide,
    (property_destination_characterization cfgProfile ("metadata")
      (by decide)).1.mpr (by decide)⟩

/-- Counterexample to claim C5 as stated: under React 19, a prop on the
attribute destination whose converted value is absent still contributes
its original value to the creation-argument map under the resolved
attribute name, so it is not omitted from the creation arguments. -/
theorem absent_attr_value_claim_counterexample :
    classify cfgCornerReact19 ("data") = Dest.attr
    ∧ isNullish (cfgCornerReact19.toAttributeValue (JSValue.vObject 0)) = true
    ∧ (classifyProps cfgCornerReact19 [(("data"), JSValue.vObject 0)]).attrs = []
    ∧ (classifyProps cfgCornerReact19 [(("data"), JSValue.vObject 0)]).reactProps =
        [(("data"), JSValue.vObject 0)] := by
  decide

/-- Claim C5 amended: a prop on the attribute destination whose converted
value is absent (null/undefined) contributes no attribute entry and leaves
the property and event collections alone; it is omitted from the
creation-argument map below React 19, while under React 19+ the original
value is still recorded there under the resolved attribute name whenever
that name is non-empty. -/
theorem absent_attr_value_routing (cfg : Config) (b : RenderBuckets) (k : String)
    (v : JSValue) (h1 : classify cfg k = Dest.attr)
    (h2 : isNullish (cfg.toAttributeValue v) = true) :
    (processEntry cfg b k v).attrs = b.attrs
    ∧ (processEntry cfg b k v).elementProps = b.elementProps
    ∧ (processEntry cfg b k v).eventProps = b.eventProps
    ∧ (cfg.isReact19 = false → (processEntry cfg b k v).reactProps = b.reactProps)
    ∧ (cfg.isReact19 = true →
        (processEntry cfg b k v).reactProps =
          if resolveAttrName cfg k = "" then b.reactProps
          else setKV b.reactProps (resolveAttrName cfg k) v) := by
  have hb : processEntry cfg b k v =
      (if resolveAttrName cfg k ≠ "" ∧ cfg.isReact19 = true then
        { b with reactProps := setKV b.reactProps (resolveAttrName cfg k) v }
      else b) := by
    simp [processEntry, h1, h2]
  rw [hb]
  by_cases hr : cfg.isReact19 = true <;>
    by_cases hn : resolveAttrName cfg k = "" <;>
    simp [hr, hn]

/-- Witness for the amended C5 below React 19. -/
theorem absent_attr_value_routing_witness :
    classify cfgCorner ("data") = Dest.attr
    ∧ isNullish (cfgCorner.toAttributeValue (JSValue.vObject 3)) = true
    ∧ (processEntry cfgCorner emptyBuckets ("data") (JSValue.vObject 3)).reactProps =
        emptyBuckets.reactProps :=
  ⟨by decide, by decide,
    (absent_attr_value_routing cfgCorner emptyBuckets ("data") (JSValue.vObject 3)
      (by decide) (by decide)).2.2.2.1 rfl⟩

/-- Claim C4: the post-commit sync assigns every current element-property
entry onto the live element, explicitly clears (assigns `undefined` to)
every key of the previous set that is absent from the current one — also
removing the same-named attribute when the key is a base-prototype name —
and stores the current set as the new previous baseline. -/
theorem syncProperties_diff_spec (hp : List String) (node : Element)
    (prev cur : List (String × JSValue)) (hcur : (keysOf cur).Nodup) :
    (syncProperties hp node prev cur).2 = cur
    ∧ (∀ k v, (k, v) ∈ cur →
        lookupKV (syncProperties hp node prev cur).1.props k = some v)
    ∧ (∀ k, k ∈ keysOf prev → k ∉ keysOf cur →
        lookupKV (syncProperties hp node prev cur).1.props k = some JSValue.vUndefined
        ∧ (k ∈ hp → lookupKV (syncProperties hp node prev cur).1.attrs k = none)) := by
  refine ⟨rfl, ?_, ?_⟩
  · intro k v hkv
    have hl : lookupKV cur k = some v := lookupKV_of_mem_nodup hkv hcur
    have hk : k ∈ keysOf cur := (mem_keysOf_iff cur k).mpr ⟨v, hkv⟩
    have e1 := syncFold_props_mem hp cur node prev k v hcur hl
    have hnot : k ∉ keysOf ((cur.foldl (syncStep hp) (node, prev)).2) := by
      rw [syncFold_snd hp cur node prev]
      intro hc
      exact ((removeFold_mem cur prev k).mp hc).2 hk
    have e2 := unsetProps_props_not_mem hp ((cur.foldl (syncStep hp) (node, prev)).2)
      ((cur.foldl (syncStep hp) (node, prev)).1) k hnot
    exact e2.trans e1
  · intro k hkprev hkcur
    have hmem : k ∈ keysOf ((cur.foldl (syncStep hp) (node, prev)).2) := by
      rw [syncFold_snd hp cur node prev]
      exact (removeFold_mem cur prev k).mpr ⟨hkprev, hkcur⟩
    exact ⟨unsetProps_props_mem hp _ _ k hmem,
      fun hhp => unsetProps_attrs_mem hp _ _ k hmem hhp⟩

/-- Witness for C4 on concrete previous/current property sets: the kept
key is assigned, the dropped base-prototype key `id` is cleared and its
attribute removed. -/
theorem syncProperties_diff_spec_witness :
    (keysOf curW).Nodup
    ∧ lookupKV (syncProperties hpW nodeW prevW curW).1.props ("metadata") =
        some (JSValue.vObject 8)
    ∧ lookupKV (syncProperties hpW nodeW prevW curW).1.props ("id") =
        some JSValue.vUndefined
    ∧ lookupKV (syncProperties hpW nodeW prevW curW).1.attrs ("id") = none := by
  refine ⟨by decide, ?_, ?_, ?_⟩
  · exact (syncProperties_diff_spec hpW nodeW prevW curW (by decide)).2.1 ("metadata")
      (JSValue.vObject 8) (by decide)
  · exact ((syncProperties_diff_spec hpW nodeW prevW curW (by decide)).2.2 ("id")
      (by decide) (by decide)).1
  · exact ((syncProperties_diff_spec hpW nodeW prevW curW (by decide)).2.2 ("id")
      (by decide) (by decide)).2 (by decide)

/-- Claim C9: classification is a total function of the prop bag (it can
never raise), and a non-function value on an event-handler destination
silently produces no listener subscription. -/
theorem classification_total_silent_event_values (cfg : Config)
    (target : Option Nat) (v : JSValue) (en : String) (cap : Bool)
    (ls : List ListenerReg) (hv : isFunction v = false) :
    (∀ k, classify cfg k = Dest.reserved ∨ classify cfg k = Dest.property
      ∨ classify cfg k = Dest.event ∨ classify cfg k = Dest.attr)
    ∧ (∀ props, classifyProps cfg props =
        props.foldl (fun b kv => processEntry cfg b kv.1 kv.2) emptyBuckets)
    ∧ effectSetup target v en cap ls = (none, ls) := by
  refine ⟨fun k => ?_, fun _ => rfl, ?_⟩
  · rcases h : classify cfg k <;> simp [h]
  · cases target with
    | none => rfl
    | some t => cases v <;> simp_all [effectSetup, isFunction]

/-- Witness for C9 at a concrete non-function handler value. -/
theorem classification_total_silent_event_values_witness :
    isFunction (JSValue.vString ("nope")) = false
    ∧ effectSetup (some 1) (JSValue.vString ("nope")) ("firstname") false [] =
        (none, []) :=
  ⟨by decide,
    (classification_total_silent_event_values cfgCorner (some 1)
      (JSValue.vString ("nope")) ("firstname") false [] (by decide)).2.2⟩

/-- Claim C10: a prop routed to the attribute destination whose resolved
attribute name is empty is dropped entirely — nothing is added to any of
the four collections, for any value and either React version branch. -/
theorem empty_attribute_name_drops_prop (cfg : Config) (b : RenderBuckets)
    (k : String) (v : JSValue) (h1 : classify cfg k = Dest.attr)
    (h2 : resolveAttrName cfg k = "") :
    processEntry cfg b k v = b := by
  simp [processEntry, h1, h2]

/-- Adding a listener makes it present. -/
theorem mem_addListener (ls : List ListenerReg) (r : ListenerReg) :
    r ∈ addListener ls r := by
  unfold addListener
  split_ifs with h
  · exact h
  · simp

/-- Adding a different listener keeps an absent one absent. -/
theorem not_mem_addListener_of_ne {ls : List ListenerReg} {a r : ListenerReg}
    (hne : a ≠ r) (h : a ∉ ls) : a ∉ addListener ls r := by
  unfold addListener
  split_ifs with hmem
  · exact h
  · simp [h, hne]

/-- Removing a listener makes it absent. -/
theorem not_mem_removeListener_self (ls : List ListenerReg) (r : ListenerReg) :
    r ∉ removeListener ls r := by
  simp [removeListener, List.mem_filter]

/-- The listener set stays duplicate-free across an addition. -/
theorem addListener_nodup {ls : List ListenerReg} (h : ls.Nodup) (r : ListenerReg) :
    (addListener ls r).Nodup := by
  unfold addListener
  split_ifs with hmem
  · exact h
  · simp [List.nodup_append, h, hmem]

/-- The listener set stays duplicate-free across a removal. -/
theorem removeListener_nodup {ls : List ListenerReg} (h : ls.Nodup)
    (r : ListenerReg) : (removeListener ls r).Nodup :=
  h.filter _

/-- Claim C7: event names resolve through the event map when the prop name
is configured there and otherwise by stripping the `on` prefix and
lowercasing the rest; a `Capture`-suffixed prop name sets the capture flag
and drops the 7-character suffix from the resolved name; re-rendering with
a new handler identity (or target) detaches the old registration and
attaches the new one exactly once, and unmount detaches the held
registration. -/
theorem event_name_resolution_and_lifecycle (events : List (String × String))
    (propName en : String) (cap : Bool) (r : ListenerReg) (ls : List ListenerReg)
    (t fid : Nat) (hnodup : ls.Nodup) :
    (∀ en0, lookupKV events propName = some en0 →
      resolveEventName events propName =
        (if strEndsWith propName ("Capture") then strDropRight en0 7 else en0,
          strEndsWith propName ("Capture")))
    ∧ (lookupKV events propName = none →
      resolveEventName events propName =
        (if strEndsWith propName ("Capture") then
            strDropRight (strLower (strDrop propName 2)) 7
          else strLower (strDrop propName 2),
          strEndsWith propName ("Capture")))
    ∧ (rerenderEventEffect (some r) ls (some t) (JSValue.vFunction fid) en cap).1 =
        some { target := t, eventName := en, capture := cap, callback := fid }
    ∧ ({ target := t, eventName := en, capture := cap, callback := fid } :
        ListenerReg) ∈
        (rerenderEventEffect (some r) ls (some t) (JSValue.vFunction fid) en cap).2
    ∧ (r ≠ { target := t, eventName := en, capture := cap, callback := fid } →
        r ∉ (rerenderEventEffect (some r) ls (some t) (JSValue.vFunction fid) en cap).2)
    ∧ ((rerenderEventEffect (some r) ls (some t) (JSValue.vFunction fid) en cap).2).Nodup
    ∧ r ∉ unmountEventEffect (some r) ls := by
  refine ⟨?_, ?_, rfl, ?_, ?_, ?_, ?_⟩
  · intro en0 h
    simp [resolveEventName, h]
  · intro h
    simp [resolveEventName, h]
  · exact mem_addListener _ _
  · intro hne
    exact not_mem_addListener_of_ne hne (not_mem_removeListener_self ls r)
  · exact addListener_nodup (removeListener_nodup hnodup r) _
  · exact not_mem_removeListener_self ls r

/-- Witness for C7: a handler-identity change swaps the registration, and
unmount leaves no registration. -/
theorem event_name_resolution_and_lifecycle_witness :
    regNew ∈ (rerenderEventEffect (some regOld) [regOld] (some 1)
        (JSValue.vFunction 20) ("firstname") false).2
    ∧ regOld ∉ (rerenderEventEffect (some regOld) [regOld] (some 1)
        (JSValue.vFunction 20) ("firstname") false).2
    ∧ regOld ∉ unmountEventEffect (some regOld) [regOld] := by
  have h := event_name_resolution_and_lifecycle [(("onFirstName"), ("firstname"))]
    ("onFirstName") ("firstname") false regOld [regOld] 1 20 (by decide)
  exact ⟨h.2.2.2.1, h.2.2.2.2.1 (by decide), h.2.2.2.2.2.2⟩

/-- Claim C8: off-browser, with both `getTemplateHTML` and
`shadowRootOptions` present, the rendered children are the template node —
carrying the shadow-root mode, focus delegation and the markup produced
from the attribute set and the original prop bag — followed by the
original children, and no client-side effect (property sync or listener
registration) is enabled; with either capability missing the children stay
untouched. -/
theorem ssr_template_injection (cfg : Config) (props : List (String × JSValue))
    (f : List (String × String) → List (String × JSValue) → String)
    (sro : ShadowRootOpts) (hw : cfg.hasWindow = false)
    (hf : cfg.elementClass.getTemplateHTML = some f)
    (hs : cfg.elementClass.shadowRootOptions = some sro) :
    (renderComponent cfg props).children =
      RenderedChildren.templateFirst
        { shadowrootmode := sro.mode,
          shadowrootdelegatesfocus := sro.delegatesFocus,
          innerHTML := f (classifyProps cfg props).attrs props }
        ((lookupKV (classifyProps cfg props).reactProps ("children")).getD
          JSValue.vUndefined)
    ∧ (renderComponent cfg props).clientEffectsEnabled = false
    ∧ (∀ (cfg2 : Config) (props2 : List (String × JSValue)),
        (cfg2.elementClass.getTemplateHTML = none
          ∨ cfg2.elementClass.shadowRootOptions = none) →
        ∃ o, (renderComponent cfg2 props2).children =
          RenderedChildren.original o) := by
  refine ⟨?_, ?_, ?_⟩
  · simp [renderComponent, hw, hf, hs]
  · simp [renderComponent, hw]
  · intro cfg2 props2 h
    refine ⟨(lookupKV (classifyProps cfg2 props2).reactProps ("children")).getD
      JSValue.vUndefined, ?_⟩
    by_cases hwin : cfg2.hasWindow = false
    · rcases h with h | h
      · simp [renderComponent, hwin, h]
      · rcases hg : cfg2.elementClass.getTemplateHTML with _ | g
        · simp [renderComponent, hwin, hg]
        · simp [renderComponent, hwin, hg, h]
    · rw [Bool.not_eq_false] at hwin
      simp [renderComponent, hwin]

/-- Witness for C8 at the concrete server configuration. -/
theorem ssr_template_injection_witness :
    (renderComponent cfgServer
        [(("firstName"), JSValue.vString ("Wesley")),
         (("children"), JSValue.vString ("kid"))]).children =
      RenderedChildren.templateFirst
        { shadowrootmode := some ("open"), shadowrootdelegatesfocus := none,
          innerHTML := ("<h1>Hello, Wesley!</h1>") }
        (JSValue.vString ("kid"))
    ∧ (renderComponent cfgServer
        [(("firstName"), JSValue.vString ("Wesley")),
         (("children"), JSValue.vString ("kid"))]).clientEffectsEnabled = false := by
  have h := ssr_template_injection cfgServer
    [(("firstName"), JSValue.vString ("Wesley")),
     (("children"), JSValue.vString ("kid"))]
    (fun attrs _ =>
      ("<h1>Hello, ") ++ (lookupKV attrs ("firstname")).getD ("") ++ ("!</h1>"))
    { mode := some ("open"), delegatesFocus := none } rfl rfl rfl
  exact ⟨h.1.trans (by decide), h.2.1⟩

/-- Witness for C10 at a naming policy that erases every name. -/
theorem empty_attribute_name_drops_prop_witness :
    classify cfgEmptyAttrName ("data") = Dest.attr
    ∧ resolveAttrName cfgEmptyAttrName ("data") = ""
    ∧ processEntry cfgEmptyAttrName emptyBuckets ("data") (JSValue.vNumber 5) =
        emptyBuckets :=
  ⟨by decide, by decide,
    empty_attribute_name_drops_prop cfgEmptyAttrName emptyBuckets ("data")
      (JSValue.vNumber 5) (by decide) (by decide)⟩

end CeLaReact
